import Mathlib

/-!
# Verification of the Zed update pipeline against its specification

Shallow embedding of the update pipeline of the Zed_Update repository:
the version comparator, release/newness checks, the retrying downloader
with integrity verification, the safe-filename derivation, backup
pruning, the install swap step, the pipeline exception barrier and the
scheduler's observer notification.  Each definition is translated from
the Python source file named in its doc comment.
-/

namespace ZedUpdate

/-! ## Version comparator — `compare_versions` in `src/updater/updater.py` -/

/-- Python `str.isdigit()`: non-empty and every character a digit
(ASCII-digit model; the repository's version strings are ASCII). -/
def pyIsDigit (s : String) : Bool :=
  s.length > 0 && s.toList.all Char.isDigit

/-- Python string `<`: lexicographic comparison by code point. -/
def pyStrLt : List Char → List Char → Bool
  | [], [] => false
  | [], _ :: _ => true
  | _ :: _, [] => false
  | a :: as, b :: bs => if a < b then true else if b < a then false else pyStrLt as bs

/-- Python `s.split(sep)` for a one-character separator, on character
lists; `"".split('.')` gives `['']`, i.e. `[[]]`. -/
def splitOnChar (sep : Char) : List Char → List (List Char)
  | [] => [[]]
  | c :: rest =>
    let r := splitOnChar sep rest
    if c == sep then [] :: r
    else
      match r with
      | h :: t => (c :: h) :: t
      | [] => [[c]]

/-- Model of `re.sub(r'[^\d.]', '', version)`: keep only digits and dots. -/
def stripNonDigitDot (v : List Char) : List Char :=
  v.filter (fun c => c.isDigit || c == '.')

/-- Numeric value of a list of digit characters. -/
def digitsToNat (l : List Char) : Nat :=
  l.foldl (fun acc c => acc * 10 + (c.toNat - '0'.toNat)) 0

/-- Python `int(p)` on a component produced by the digit/dot strip: the
component consists of digits only, and `int` raises `ValueError` exactly
when it is empty. -/
def parseIntComponent (l : List Char) : Option Nat :=
  if 0 < l.length && l.all Char.isDigit then some (digitsToNat l) else none

/-- The list comprehension `[int(p) for p in parts]`: all components
parse, or the comprehension raises (`none`). -/
def mapOptList (f : α → Option β) : List α → Option (List β)
  | [] => some []
  | a :: as =>
    match f a, mapOptList f as with
    | some b, some bs => some (b :: bs)
    | _, _ => none

/-- Inner `parse_version` of `compare_versions`
(`src/updater/updater.py` lines 229-237): strip to digits and dots,
split on `.`, append `"0"` until there are at least 3 parts, and convert
the first three parts with `int`; a `ValueError` is modelled as `none`. -/
def parse_version (v : String) : Option (List Nat) :=
  let clean := stripNonDigitDot v.toList
  let parts := splitOnChar '.' clean
  let padded := parts ++ List.replicate (3 - parts.length) ['0']
  mapOptList parseIntComponent (padded.take 3)

/-- The component-wise loop `for c, l in zip(current_parts, latest_parts)`. -/
def cmpParts : List Nat → List Nat → Int
  | c :: cs, l :: ls =>
    if c < l then -1 else if c > l then 1 else cmpParts cs ls
  | _, _ => 0

/-- Function `compare_versions` (`src/updater/updater.py` lines 198-257).
Returns -1 when `current < latest`, 0 on equality, 1 when
`current > latest`; any `ValueError` during parsing is caught and
turned into -1 (fail-open). -/
def compare_versions (current latest : String) : Int :=
  if pyIsDigit current && pyIsDigit latest &&
     current.length == 8 && latest.length == 8 then
    if pyStrLt current.toList latest.toList then -1
    else if pyStrLt latest.toList current.toList then 1
    else 0
  else if pyIsDigit current != pyIsDigit latest then -1
  else
    match parse_version current, parse_version latest with
    | some cp, some lp => cmpParts cp lp
    | _, _ => -1

/-- Spec-side comparison for the amended C8 claim: in the semantic
branch the strings are stripped to digits and dots, split on `.`,
right-padded with zeros to three components, and exactly the first
three components are compared as integers — components beyond the third
are ignored, and equality of the first three yields 0. -/
def semanticCompareSpec (current latest : String) : Int :=
  match parse_version current, parse_version latest with
  | some cp, some lp => cmpParts (cp.take 3) (lp.take 3)
  | _, _ => -1

/-! ## Newness tests — `_is_newer_version` in `src/src/zed_updater/core/updater.py`
and `has_update_available` in `src/updater/updater.py` -/

/-- Model of `re.findall(r'\d+', s)` as character runs, accumulator-style. -/
def digitRunsGo : List Char → List Char → List (List Char)
  | [], acc => if acc.isEmpty then [] else [acc.reverse]
  | c :: rest, acc =>
    if c.isDigit then digitRunsGo rest (c :: acc)
    else if acc.isEmpty then digitRunsGo rest []
    else acc.reverse :: digitRunsGo rest []

/-- The integer values of the maximal digit runs of a string
(`re.findall(r'\d+', s)` followed by `int`). -/
def digitRuns (s : String) : List Nat :=
  (digitRunsGo s.toList []).map digitsToNat

def isLeapYear (y : Nat) : Bool :=
  (y % 4 == 0 && y % 100 != 0) || y % 400 == 0

def daysInMonth (y m : Nat) : Nat :=
  if m = 2 then (if isLeapYear y then 29 else 28)
  else if m = 4 ∨ m = 6 ∨ m = 9 ∨ m = 11 then 30
  else 31

/-- Model of `datetime.strptime(s, "%Y-%m-%d")`: exactly four year digits, one or
two month digits in 1-12, one or two day digits valid for the month,
joined by single dashes with nothing left over. -/
def parseDateYMD (s : String) : Option (Nat × Nat × Nat) :=
  match splitOnChar '-' s.toList with
  | [ys, ms, ds] =>
    if ys.length == 4 && ys.all Char.isDigit &&
       decide (0 < ms.length) && decide (ms.length ≤ 2) && ms.all Char.isDigit &&
       decide (0 < ds.length) && decide (ds.length ≤ 2) && ds.all Char.isDigit then
      let y := digitsToNat ys
      let m := digitsToNat ms
      let d := digitsToNat ds
      if decide (1 ≤ m) && decide (m ≤ 12) && decide (1 ≤ d) && decide (d ≤ daysInMonth y m)
      then some (y, m, d) else none
    else none
  | _ => none

/-- Lexicographic order on (year, month, day) triples — the order
`datetime` objects compare in. -/
def dateTripleLt (a b : Nat × Nat × Nat) : Bool :=
  a.1 < b.1 || (a.1 == b.1 && (a.2.1 < b.2.1 || (a.2.1 == b.2.1 && a.2.2 < b.2.2)))

/-- The `for c, l in zip(current_parts, latest_parts)` loop of
`_is_newer_version`: `some true`/`some false` when a component decides,
`none` when the zip is exhausted with all components equal. -/
def semZipNewer : List Nat → List Nat → Option Bool
  | c :: cs, l :: ls =>
    if l > c then some true else if l < c then some false else semZipNewer cs ls
  | _, _ => none

/-- Function `_is_newer_version` (`src/src/zed_updater/core/updater.py` lines
174-209).  `current = none` models Python `None`; `not current` is true
for `None` and the empty string. -/
def is_newer_version (current : Option String) (latest : String) : Bool :=
  match current with
  | none => true
  | some c =>
    if c == "" || c == "unknown" then true
    else
      match parseDateYMD c, parseDateYMD latest with
      | some cd, some ld => dateTripleLt cd ld
      | _, _ =>
        let currentParts := digitRuns c
        let latestParts := digitRuns latest
        if currentParts.isEmpty || latestParts.isEmpty then true
        else
          match semZipNewer currentParts latestParts with
          | some b => b
          | none => decide (latestParts.length > currentParts.length)

/-- The comparison core of `has_update_available`
(`src/updater/updater.py` lines 259-287), with the current and latest
version strings already fetched.  `if not current: return True` precedes
every comparison. -/
def has_update_available_core (current : Option String) (latest : String) : Bool :=
  match current with
  | none => true
  | some c =>
    if c == "" then true
    else if c == latest then false
    else if pyIsDigit c && pyIsDigit latest && c.length == 8 && latest.length == 8 then
      pyStrLt c.toList latest.toList
    else decide (compare_versions c latest < 0)

/-! ## Observer notification — `_notify_callbacks` in
`src/updater/scheduler.py` lines 51-62 (identical loop in
`src/zed_updater/core/scheduler.py` lines 55-69) -/

/-- What happened to one observer callback: it ran to completion, or it
raised and the exception was caught and logged. -/
inductive NotifyOutcome where
  | delivered : NotifyOutcome
  | errorLogged (msg : String) : NotifyOutcome
deriving DecidableEq, Repr

/-- The `for callback in self.update_callbacks: try: callback(...)
except: log` loop.  Each callback receives `(update_available,
version_info)`; a raising callback is recorded as logged and the loop
continues with the remaining callbacks. -/
def notify_callbacks {V : Type} (cbs : List (Bool → V → Except String Unit))
    (ua : Bool) (vi : V) : List NotifyOutcome :=
  match cbs with
  | [] => []
  | cb :: rest =>
    (match cb ua vi with
     | Except.ok _ => NotifyOutcome.delivered
     | Except.error e => NotifyOutcome.errorLogged e) :: notify_callbacks rest ua vi

/-! ## Downloader — `_retry_request` and `download_update` in
`src/updater/updater.py` lines 289-307 and 381-539.

Bytes are modelled as `Nat`, a response body as its list of chunks, and
the single download path's disk state as `Option (List Nat)`. -/

/-- One network attempt: a transport failure (`RequestException`) or a
response with an HTTP status, the `content-length` header (`0` when the
header is absent, matching `int(headers.get('content-length', 0))`) and
the streamed body chunks. -/
inductive ReqOutcome where
  | fail : ReqOutcome
  | resp (status : Nat) (contentLength : Nat) (chunks : List (List Nat)) : ReqOutcome

/-- The `for attempt in range(max_retries)` loop of `_retry_request`:
each attempt issues the request; `raise_for_status` turns any status
≥ 400 into a `RequestException`, which is retried like a transport
failure; the first surviving response is returned together with the
number of attempts consumed.  `none` models the final re-raise after
all attempts failed. -/
def retryRequestGo (outcomes : Nat → ReqOutcome) :
    Nat → Nat → Option (Nat × Nat × Nat × List (List Nat))
  | _, 0 => none
  | i, rem + 1 =>
    match outcomes i with
    | ReqOutcome.fail => retryRequestGo outcomes (i + 1) rem
    | ReqOutcome.resp status cl chunks =>
      if status ≥ 400 then retryRequestGo outcomes (i + 1) rem
      else some (i + 1, status, cl, chunks)

def retry_request (outcomes : Nat → ReqOutcome) (maxRetries : Nat) :
    Option (Nat × Nat × Nat × List (List Nat)) :=
  retryRequestGo outcomes 0 maxRetries

/-- The binary-signature check of `download_update`: the first four
bytes read start with `PK\x03\x04` (ZIP) or `MZ` (PE executable). -/
def isValidMagic (file : List Nat) : Bool :=
  file.take 4 == [80, 75, 3, 4] || file.take 2 == [77, 90]

/-- What `download_update` leaves behind: the value it returns (a
verified file, or `none` on failure), what remains on disk at the
download path, and how many request attempts were consumed. -/
structure DownloadOutcome where
  result : Option (List Nat)
  fsFile : Option (List Nat)
  attemptsUsed : Nat
deriving DecidableEq, Repr

/-- Function `download_update` (`src/updater/updater.py` lines 381-539) after the
filename has been fixed: obtain a response through `_retry_request`
(exhausted retries propagate an exception that the surrounding handler
converts into `None`), reject non-200 statuses, stream the body to
disk, then verify: a reported content-length must equal the bytes
written, the file must be non-empty, and its magic bytes must be valid;
on any verification failure the file is deleted and `None` returned. -/
def download_update (outcomes : Nat → ReqOutcome) (maxRetries : Nat) : DownloadOutcome :=
  match retry_request outcomes maxRetries with
  | none => ⟨none, none, maxRetries⟩
  | some (used, status, cl, chunks) =>
    if status ≠ 200 then ⟨none, none, used⟩
    else
      let file := chunks.flatten
      let actualSize := file.length
      if 0 < cl ∧ actualSize ≠ cl then ⟨none, none, used⟩
      else if actualSize = 0 then ⟨none, none, used⟩
      else if isValidMagic file then ⟨some file, some file, used⟩
      else ⟨none, none, used⟩

/-! ## Install swap — the replace-file block of `install_update` in
`src/updater/updater.py` lines 659-707.

The install source has already been extracted and signature-verified.
The filesystem locations involved are the install target
(`zed_install_path`) and its `*.exe.old` sibling. -/

/-- Fault model for `shutil.copy2(install_source, zed_path)`: it
succeeds, raises before creating the destination, raises after writing
`k` bytes, or returns normally having written only `k` bytes (the
size-mismatch case the code checks for explicitly). -/
inductive CopyFault where
  | ok : CopyFault
  | raiseNoFile : CopyFault
  | raiseAfter (k : Nat) : CopyFault
  | silentTruncate (k : Nat) : CopyFault
deriving DecidableEq, Repr

/-- Contents at the install target and at its `*.exe.old` sibling. -/
structure SwapState where
  target : Option (List Nat)
  oldFile : Option (List Nat)
deriving DecidableEq, Repr

structure SwapResult where
  success : Bool
  fs : SwapState
deriving DecidableEq, Repr

/-- Effect of the `shutil.copy2` call under the fault model; the `Bool`
records whether the call raised. -/
def copyStep (source : List Nat) (fault : CopyFault) (st : SwapState) : SwapState × Bool :=
  match fault with
  | CopyFault.ok => ({ st with target := some source }, false)
  | CopyFault.raiseNoFile => ({ st with target := none }, true)
  | CopyFault.raiseAfter k => ({ st with target := some (source.take k) }, true)
  | CopyFault.silentTruncate k => ({ st with target := some (source.take k) }, false)

/-- The inner `except` handler of the replace-file block (lines
690-699): restore the original only when `temp_old` was set, the `*.old`
file exists, and nothing sits at the target —
`if temp_old and temp_old.exists() and not zed_path.exists():
temp_old.rename(zed_path)` — then return `False`. -/
def swapExceptionHandler (tempOldSet : Bool) (st : SwapState) : SwapResult :=
  if tempOldSet ∧ st.oldFile.isSome ∧ st.target.isNone then
    ⟨false, { target := st.oldFile, oldFile := none }⟩
  else ⟨false, st⟩

/-- The replace-file block of `install_update` (lines 659-707): if the
target exists, delete any stale `*.old` and rename the target to
`*.old`; copy the install source to the target; raise if the target is
missing afterwards or its size differs from the source; on an exception
run the inner handler; on success delete the `*.old` sibling and return
`True`. -/
def install_swap (source : List Nat) (fault : CopyFault) (st0 : SwapState) : SwapResult :=
  let tempOldSet := st0.target.isSome
  let st1 := if st0.target.isSome then SwapState.mk none st0.target else st0
  let step := copyStep source fault st1
  if step.2 then swapExceptionHandler tempOldSet step.1
  else if step.1.target.isNone then swapExceptionHandler tempOldSet step.1
  else if (step.1.target.getD []).length ≠ source.length then
    swapExceptionHandler tempOldSet step.1
  else ⟨true, { step.1 with oldFile := none }⟩

/-! ## Backup pruning — `_cleanup_old_backups` in
`src/updater/updater.py` lines 578-605 and
`src/src/zed_updater/core/updater.py` lines 293-317.

A backup file is represented by its modification time; in the scenarios
proved below the times are distinct, so the stability of Python's sort
is immaterial. -/

def insertDesc (x : Nat) : List Nat → List Nat
  | [] => [x]
  | y :: ys => if x ≥ y then x :: y :: ys else y :: insertDesc x ys

/-- Model of `backup_files.sort(key=mtime, reverse=True)` — descending. -/
def sortDesc (l : List Nat) : List Nat := l.foldr insertDesc []

def insertAsc (x : Nat) : List Nat → List Nat
  | [] => [x]
  | y :: ys => if x ≤ y then x :: y :: ys else y :: insertAsc x ys

/-- Model of `backup_files.sort(key=mtime)` — ascending. -/
def sortAsc (l : List Nat) : List Nat := l.foldr insertAsc []

/-- Legacy `_cleanup_old_backups` (lines 578-605): return immediately
when `backup_count <= 0`; otherwise sort descending by mtime and delete
every file beyond the first `backup_count` entries.  The surviving
directory contents are the files among the newest `backup_count`. -/
def cleanup_old_backups (backupCount : Int) (files : List Nat) : List Nat :=
  if backupCount ≤ 0 then files
  else
    let keep := (sortDesc files).take backupCount.toNat
    files.filter (fun f => keep.contains f)

/-- One legacy install's effect on the backup directory: `create_backup`
copies the current executable (mtime `now`), then prunes. -/
def legacyBackupStep (backupCount : Int) (files : List Nat) (now : Nat) : List Nat :=
  cleanup_old_backups backupCount (files ++ [now])

def legacyBackupRun (backupCount : Int) (files : List Nat) (times : List Nat) : List Nat :=
  times.foldl (legacyBackupStep backupCount) files

/-- Modern `_cleanup_old_backups`
(`src/src/zed_updater/core/updater.py` lines 293-317): only when there
are more than `backup_count` files, sort ascending and delete
`backup_files[:-backup_count]`; for `backup_count = 0` that Python slice
is empty, so nothing is deleted. -/
def modernCleanup (backupCount : Nat) (files : List Nat) : List Nat :=
  if files.length > backupCount then
    if backupCount = 0 then files
    else
      let keep := (sortAsc files).drop (files.length - backupCount)
      files.filter (fun f => keep.contains f)
  else files

/-- One modern install's effect on the backup directory: `create_backup`
prunes FIRST (line 278) and only then copies the new backup. -/
def modernBackupStep (backupCount : Nat) (files : List Nat) (now : Nat) : List Nat :=
  modernCleanup backupCount files ++ [now]

def modernBackupRun (backupCount : Nat) (files : List Nat) (times : List Nat) : List Nat :=
  times.foldl (modernBackupStep backupCount) files

/-! ## Update pipeline — `check_and_update` in
`src/src/zed_updater/core/updater.py` lines 403-446.

The stages invoked by the pipeline body are parameters; each may return
normally or raise (`Except.error`), modelling an exception escaping that
stage into the pipeline's `try` block. -/

structure UpdateResult where
  success : Bool
  message : String
  version : Option String
  error_code : Option String
deriving DecidableEq, Repr

/-- The collaborators `check_and_update` invokes, each allowed to raise:
`check_for_updates`, the progress callback, `download_update`,
`install_update`, the `auto_start_after_update` configuration lookup and
`start_zed`. -/
structure PipelineStages (R D : Type) where
  checkForUpdates : Except String (Option R)
  progressCallback : Nat → String → Except String Unit
  downloadUpdate : R → Except String (Option D)
  installUpdate : D → Except String UpdateResult
  autoStartSetting : Except String Bool
  startZed : Except String Bool

/-- The body of the `try` block of `check_and_update` (lines 405-437):
no release → benign success; download failure → `DOWNLOAD_FAILED`;
otherwise install and return its result, starting the application first
when configured and the install succeeded. -/
def pipelineBody {R D : Type} (s : PipelineStages R D) : Except String UpdateResult := do
  let rel? ← s.checkForUpdates
  match rel? with
  | none => return ⟨true, "没有可用的更新", none, none⟩
  | some rel =>
    let _ ← s.progressCallback 0 "开始下载更新..."
    let dl? ← s.downloadUpdate rel
    match dl? with
    | none => return ⟨false, "下载失败", none, some "DOWNLOAD_FAILED"⟩
    | some dl =>
      let _ ← s.progressCallback 80 "正在安装更新..."
      let res ← s.installUpdate dl
      if res.success then do
        let auto ← s.autoStartSetting
        if auto then
          let _ ← s.startZed
          return res
        else return res
      else return res

/-- Function `check_and_update` (lines 403-446): the body wrapped in the
`except Exception` barrier that converts any escaping exception into an
`UPDATE_FAILED` result.  The return type is still `Except` so that the
absence of propagated exceptions is a theorem, not a typing artifact. -/
def check_and_update {R D : Type} (s : PipelineStages R D) : Except String UpdateResult :=
  match pipelineBody s with
  | Except.ok r => Except.ok r
  | Except.error e =>
    Except.ok ⟨false, "更新检查/安装失败: " ++ e, none, some "UPDATE_FAILED"⟩

/-! ## Safe filename derivation — `_safe_filename_from_url` in
`src/updater/updater.py` lines 309-379.

The input URL is given by its parsed components (`urlparse`): scheme,
netloc and the already percent-decoded (`unquote`) path; `ts` is the
`datetime.now().strftime('%Y%m%d_%H%M%S')` string used by the fallback
names.  All strings are handled as character lists.  The `\w` class of
`re.sub(r'[^\w\-\.]', '_', ...)` is modelled as alphanumeric-or-underscore;
the safety properties proved below are insensitive to the exact extent
of `\w`, since path separators and dots are outside `\w` in any case. -/

/-- Characters kept by `re.sub(r'[^\w\-\.]', '_', filename)`. -/
def isWordChar (c : Char) : Bool := c.isAlphanum || c == '_'

def charOK (c : Char) : Bool := isWordChar c || c == '-' || c == '.'

/-- Replacement of unsafe characters by `_`
(`re.sub(r'[^\w\-\.]', '_', filename)`, one character). -/
def sanitizeChar (c : Char) : Char := if charOK c then c else '_'

/-- Domain cleaning `re.sub(r'[^\w\-]', '_', domain)`, one character. -/
def sanitizeDomainChar (c : Char) : Char :=
  if isWordChar c || c == '-' then c else '_'

/-- Whether the list contains two adjacent dots — the string containment
test `'..' in s`.  Every pattern of the traversal check
(`'..'`, `'../'`, `'..\\'`, `'\\..'`) contains `'..'`, so
`any(traversal in path for ...)` is equivalent to this test. -/
def hasDD : List Char → Bool
  | [] => false
  | [_] => false
  | a :: b :: rest => (a == '.' && b == '.') || hasDD (b :: rest)

/-- Model of `os.path.basename` (ntpath): the part after the last `/` or
`\`. -/
def ntBasename (p : List Char) : List Char :=
  (p.reverse.takeWhile (fun c => !(c == '/') && !(c == '\\'))).reverse

/-- Model of `os.path.splitext` on a separator-free name with no leading
dot: split at the last dot when there is one. -/
def splitExt (l : List Char) : List Char × List Char :=
  if l.contains '.' then
    let extLen := (l.reverse.takeWhile (fun c => !(c == '.'))).length + 1
    (l.take (l.length - extLen), l.drop (l.length - extLen))
  else (l, [])

/-- The `zed_update_{timestamp}.zip` fallback returned whenever the
derivation raises (`except` branches of `_safe_filename_from_url`). -/
def fallbackName (ts : List Char) : List Char :=
  "zed_update_".toList ++ ts ++ ".zip".toList

/-- The `{domain}_{timestamp}.zip` name synthesized when the URL path
has no usable filename: the netloc up to the port colon, cleaned by
`re.sub(r'[^\w\-]', '_', domain)`. -/
def domainName (netloc ts : List Char) : List Char :=
  (netloc.takeWhile (fun c => !(c == ':'))).map sanitizeDomainChar
    ++ ['_'] ++ ts ++ ".zip".toList

/-- The `download_{timestamp}.zip` name used when sanitizing left an
empty filename. -/
def downloadName (ts : List Char) : List Char :=
  "download_".toList ++ ts ++ ".zip".toList

/-- The length limit: names longer than 100 characters keep the first
95 characters of the stem plus the extension
(`name[:95] + ext` after `os.path.splitext`). -/
def truncate100 (l : List Char) : List Char :=
  if l.length > 100 then (splitExt l).1.take 95 ++ (splitExt l).2 else l

/-- Function `_safe_filename_from_url` (`src/updater/updater.py` lines
309-379), step by step: reject URLs without scheme or netloc; reject
paths containing `..` (traversal); take the basename; when it has no
dot or is empty, synthesize `{domain}_{timestamp}.zip`; replace every
character outside `[\w\-.]` by `_`; strip leading dots; (dead) separator
check; empty name → `download_{timestamp}.zip`; truncate names longer
than 100 characters keeping the extension; final validation (non-empty,
no `..`, no leading dot).  Every raise lands in the `except` branches,
which return `zed_update_{timestamp}.zip`. -/
def safe_filename_from_url (scheme netloc path ts : List Char) : List Char :=
  if scheme.isEmpty || netloc.isEmpty then fallbackName ts
  else if hasDD path then fallbackName ts
  else
    let f4 := ntBasename path
    let f5 :=
      if f4.isEmpty || f4 == ['/'] || !(f4.contains '.') then domainName netloc ts
      else f4
    let f6 := f5.map sanitizeChar
    let f7 := f6.dropWhile (fun c => c == '.')
    if f7.contains '\\' || f7.contains '/' then fallbackName ts
    else
      let f9 := if f7.isEmpty then downloadName ts else f7
      let f10 := truncate100 f9
      if f10.isEmpty || hasDD f10 || f10.head? == some '.' then fallbackName ts
      else f10

/-- Characters produced by `strftime('%Y%m%d_%H%M%S')`: digits and
underscores. -/
def tsSafeB (ts : List Char) : Bool := ts.all (fun c => c.isDigit || c == '_')

/-! ## Concrete scenarios used to instantiate the theorems -/

/-- Attempt sequence whose first attempt is an HTTP 200 response
claiming `content-length: 10` but delivering only 5 bytes (with a valid
ZIP signature), and whose later attempts would deliver a consistent
5-byte file. -/
def truncatedThenGoodAttempts : Nat → ReqOutcome := fun i =>
  if i = 0 then ReqOutcome.resp 200 10 [[80, 75, 3, 4, 0]]
  else ReqOutcome.resp 200 5 [[80, 75, 3, 4, 0]]

/-- Pipeline stages whose release lookup raises. -/
def raisingStages : PipelineStages Unit Unit where
  checkForUpdates := Except.error "boom"
  progressCallback := fun _ _ => Except.ok ()
  downloadUpdate := fun _ => Except.ok none
  installUpdate := fun _ => Except.ok ⟨true, "", none, none⟩
  autoStartSetting := Except.ok false
  startZed := Except.ok true

/-! ## Theorems -/

/-- Helper: Python list-comprehension `[int(p) for p in parts]` yields a
list of the same length when no component raises. -/
theorem mapOptList_length {α β : Type} (f : α → Option β) (l : List α) (r : List β)
    (h : mapOptList f l = some r) : r.length = l.length := by
  induction l generalizing r with
  | nil => simp [mapOptList] at h; simp [← h]
  | cons a as ih =>
    unfold mapOptList at h
    cases ha : f a with
    | none => rw [ha] at h; simp at h
    | some b =>
      rw [ha] at h
      cases has : mapOptList f as with
      | none => rw [has] at h; simp at h
      | some bs =>
        rw [has] at h
        simp at h
        subst h
        simp [ih bs has]

/-- Helper: `parse_version` returns at most three components, so taking
the first three is the identity. -/
theorem parse_version_take3 (v : String) (cp : List Nat)
    (h : parse_version v = some cp) : cp.take 3 = cp := by
  unfold parse_version at h
  apply List.take_of_length_le
  have := mapOptList_length _ _ _ h
  rw [this]
  simp [List.length_take]

/-- C1 (code bug): in the replace-file block of `install_update`, a
copy that raises after writing 2 of the new file's 5 bytes leaves the
target holding the 2-byte partial file: the function returns failure,
but the `*.old` sibling is NOT renamed back (the restore guard
`not zed_path.exists()` is false because the partial file exists), so
the target holds neither the original executable nor the new one —
contradicting the claim that the `*.old` sibling is always renamed back
and the target always holds the original on failure. -/
theorem C1_install_rollback_gap :
    install_swap [2, 2, 2, 2, 2] (CopyFault.raiseAfter 2) ⟨some [1, 1, 1, 1], none⟩ =
      ⟨false, ⟨some [2, 2], some [1, 1, 1, 1]⟩⟩ ∧
    (install_swap [2, 2, 2, 2, 2] (CopyFault.raiseAfter 2)
        ⟨some [1, 1, 1, 1], none⟩).fs.target ≠ some [1, 1, 1, 1] ∧
    (install_swap [2, 2, 2, 2, 2] (CopyFault.raiseAfter 2)
        ⟨some [1, 1, 1, 1], none⟩).fs.target ≠ some [2, 2, 2, 2, 2] := by
  refine ⟨by decide, by decide, by decide⟩

/-- C3 (counterexample): `compare_versions "20240101" "9.9.9" = -1`,
which by the function's contract (−1 means the first argument is older)
reports the semantic version `"9.9.9"` — not the 8-digit date — as the
newer one; and the reverse call also returns −1, so the date string does
not win in both directions: the second argument wins in both. -/
theorem C3_date_beats_semantic_counterexample :
    compare_versions "20240101" "9.9.9" = -1 ∧
    compare_versions "20240101" "9.9.9" ≠ 1 ∧
    compare_versions "9.9.9" "20240101" = -1 := by
  refine ⟨by decide, by decide, by decide⟩

/-- C3 (amended): whenever exactly one of the two arguments is purely
numeric (`str.isdigit`, with no 8-digit length requirement), the mixed
branch of `compare_versions` returns −1, i.e. the second argument
(`latest`) is reported newer regardless of which argument is the
date-stamped one. -/
theorem C3_mixed_format_latest_wins (current latest : String)
    (h : pyIsDigit current ≠ pyIsDigit latest) :
    compare_versions current latest = -1 := by
  unfold compare_versions
  have h1 : (pyIsDigit current && pyIsDigit latest &&
      current.length == 8 && latest.length == 8) = false := by
    cases hc : pyIsDigit current <;> cases hl : pyIsDigit latest <;> simp_all
  have h2 : (pyIsDigit current != pyIsDigit latest) = true := by
    cases hc : pyIsDigit current <;> cases hl : pyIsDigit latest <;> simp_all
  simp [h1, h2]

theorem C3_mixed_format_latest_wins_witness :
    pyIsDigit "20240101" ≠ pyIsDigit "9.9.9" ∧
    compare_versions "20240101" "9.9.9" = -1 :=
  ⟨by decide, C3_mixed_format_latest_wins "20240101" "9.9.9" (by decide)⟩

/-- C6: for every malformed first argument — not purely numeric, and
with a component of its stripped form that `int` cannot parse (which
covers the empty string and strings with no digits at all) —
`compare_versions` returns −1 for every second argument: the
`ValueError` is caught and the function fails open toward "an update is
available". -/
theorem C6_fail_open_malformed (current latest : String)
    (h1 : pyIsDigit current = false) (h2 : parse_version current = none) :
    compare_versions current latest = -1 := by
  unfold compare_versions
  rw [h1]
  cases hl : pyIsDigit latest <;> simp [h2]

theorem C6_fail_open_malformed_witness :
    pyIsDigit "" = false ∧ parse_version "" = none ∧
    pyIsDigit "not-a-version" = false ∧ parse_version "not-a-version" = none ∧
    compare_versions "" "1.0.0" = -1 ∧
    compare_versions "not-a-version" "1.0.0" = -1 :=
  ⟨by decide, by decide, by decide, by decide,
   C6_fail_open_malformed "" "1.0.0" (by decide) (by decide),
   C6_fail_open_malformed "not-a-version" "1.0.0" (by decide) (by decide)⟩

/-- C8 (counterexample): `compare_versions "1.2.3" "1.2.3.4" = 0` — the
semantic branch truncates to the first three components (`parts[:3]`),
so the version with more components is reported EQUAL, not newer,
contradicting the claim that it is reported as the newer one. -/
theorem C8_extra_components_ignored_counterexample :
    compare_versions "1.2.3" "1.2.3.4" = 0 ∧
    compare_versions "1.2.3" "1.2.3.4" ≠ -1 := by
  refine ⟨by decide, by decide⟩

/-- C8 (amended): on the semantic branch (neither the both-8-digit fast
path nor the mixed branch applies), `compare_versions` strips
non-digit/non-dot characters, splits on dots, right-pads with zeros to
three components and compares exactly the first three components as
integers — components beyond the third are ignored and equality of the
first three yields 0, as stated by `semanticCompareSpec`. -/
theorem C8_semantic_three_component_compare (current latest : String)
    (h8 : (pyIsDigit current && pyIsDigit latest &&
      current.length == 8 && latest.length == 8) = false)
    (hmix : pyIsDigit current = pyIsDigit latest) :
    compare_versions current latest = semanticCompareSpec current latest := by
  unfold compare_versions semanticCompareSpec
  rw [h8, hmix]
  simp only [bne_self_eq_false, Bool.false_eq_true, if_false]
  cases hc : parse_version current with
  | none => simp
  | some cp =>
    cases hl : parse_version latest with
    | none => simp
    | some lp =>
      simp [parse_version_take3 _ _ hc, parse_version_take3 _ _ hl]

theorem C8_semantic_three_component_compare_witness :
    (pyIsDigit "1.2.3" && pyIsDigit "1.2.3.4" &&
      ("1.2.3" : String).length == 8 && ("1.2.3.4" : String).length == 8) = false ∧
    pyIsDigit "1.2.3" = pyIsDigit "1.2.3.4" ∧
    compare_versions "1.2.3" "1.2.3.4" = semanticCompareSpec "1.2.3" "1.2.3.4" ∧
    semanticCompareSpec "1.2.3" "1.2.3.4" = 0 :=
  ⟨by decide, by decide,
   C8_semantic_three_component_compare "1.2.3" "1.2.3.4" (by decide) (by decide),
   by decide⟩

/-- C9: the notification loop invokes every registered callback with
`(update_available, version_info)` — the outcome list is exactly the
map of the callbacks over that one argument pair, so an exception in
any one callback (recorded as logged) never prevents the remaining
callbacks from being invoked, and the loop itself never raises. -/
theorem C9_observer_isolation {V : Type} (cbs : List (Bool → V → Except String Unit))
    (ua : Bool) (vi : V) :
    notify_callbacks cbs ua vi =
      cbs.map (fun cb =>
        match cb ua vi with
        | Except.ok _ => NotifyOutcome.delivered
        | Except.error e => NotifyOutcome.errorLogged e) ∧
    (notify_callbacks cbs ua vi).length = cbs.length := by
  induction cbs with
  | nil => exact ⟨rfl, rfl⟩
  | cons cb rest ih =>
    refine ⟨?_, ?_⟩
    · simp only [notify_callbacks, List.map_cons]
      rw [ih.1]
    · simp only [notify_callbacks, List.length_cons]
      rw [ih.2]

/-- C10: when the installed version cannot be determined — `None`, the
empty string, or the sentinel `"unknown"` in the modern
`_is_newer_version`; `None` or empty (Python falsy) in the legacy
`has_update_available` — the newness test returns `true` for every
latest-version string, without the comparison logic influencing the
result. -/
theorem C10_missing_current_version_updates (latest : String) :
    is_newer_version none latest = true ∧
    is_newer_version (some "") latest = true ∧
    is_newer_version (some "unknown") latest = true ∧
    has_update_available_core none latest = true ∧
    has_update_available_core (some "") latest = true := by
  refine ⟨rfl, ?_, ?_, rfl, ?_⟩ <;> simp [is_newer_version, has_update_available_core]

/-- C7 (counterexample): in the modern updater `create_backup` prunes
BEFORE copying the new backup, so after 4 installs (at times 1,2,3,4)
with retention count 3, four backup files remain — not exactly 3 as the
claim states for every N ≥ 3. -/
theorem C7_modern_backup_retention_counterexample :
    modernBackupRun 3 [] [1, 2, 3, 4] = [1, 2, 3, 4] ∧
    (modernBackupRun 3 [] [1, 2, 3, 4]).length = 4 := by
  refine ⟨by decide, by decide⟩

/-- C4 (counterexample): with retry budget 3, an HTTP-successful first
attempt claiming `content-length: 10` but delivering 5 bytes yields no
DownloadResult and leaves no file on disk — but only ONE attempt is
consumed: the remaining retries are never made, even though the second
attempt (as the second conjunct shows when used alone) would have
delivered a verifiable file.  The retry loop applies only to
request/transport failures, not to size verification. -/
theorem C4_no_retry_after_size_mismatch_counterexample :
    download_update truncatedThenGoodAttempts 3 = ⟨none, none, 1⟩ ∧
    download_update (fun _ => truncatedThenGoodAttempts 1) 3 =
      ⟨some [80, 75, 3, 4, 0], some [80, 75, 3, 4, 0], 1⟩ := by
  refine ⟨by decide, by decide⟩

/-- C4 (amended): whenever the attempt that survives `_retry_request`
reports a positive content-length that differs from the bytes written,
`download_update` produces no DownloadResult, deletes the partial file,
and terminates with exactly the attempts consumed so far — no further
retry is made for a size mismatch. -/
theorem C4_size_mismatch_rejection (outcomes : Nat → ReqOutcome)
    (maxRetries used cl : Nat) (chunks : List (List Nat))
    (hr : retry_request outcomes maxRetries = some (used, 200, cl, chunks))
    (hcl : 0 < cl) (hsz : chunks.flatten.length ≠ cl) :
    download_update outcomes maxRetries = ⟨none, none, used⟩ := by
  unfold download_update
  rw [hr]
  dsimp only
  split_ifs with h1 h2 h3 h4 <;>
    first
      | rfl
      | exact absurd rfl h1
      | exact absurd ⟨hcl, hsz⟩ h2

theorem C4_size_mismatch_rejection_witness :
    retry_request truncatedThenGoodAttempts 3 = some (1, 200, 10, [[80, 75, 3, 4, 0]]) ∧
    0 < 10 ∧ ([[80, 75, 3, 4, 0]] : List (List Nat)).flatten.length ≠ 10 ∧
    download_update truncatedThenGoodAttempts 3 = ⟨none, none, 1⟩ :=
  ⟨by decide, by decide, by decide,
   C4_size_mismatch_rejection truncatedThenGoodAttempts 3 1 10 [[80, 75, 3, 4, 0]]
     (by decide) (by decide) (by decide)⟩

/-- C2: the pipeline boundary of `check_and_update` is a hard catch-all:
for every behavior of the invoked stages (release lookup, progress
callback, download, install, configuration lookup, application start,
each free to raise), the call returns an `UpdateResult` — it never
propagates an exception — and whenever an exception escapes the body
(i.e. the body evaluates to `Except.error e`), the returned result has
`success = false` and the generic `UPDATE_FAILED` error code. -/
theorem C2_pipeline_exception_barrier {R D : Type} (s : PipelineStages R D) :
    (∃ r, check_and_update s = Except.ok r) ∧
    (∀ e, pipelineBody s = Except.error e →
      check_and_update s =
        Except.ok ⟨false, "更新检查/安装失败: " ++ e, none, some "UPDATE_FAILED"⟩) := by
  unfold check_and_update
  cases h : pipelineBody s with
  | ok r =>
    refine ⟨⟨r, rfl⟩, fun e he => ?_⟩
    exact absurd he (by simp)
  | error e =>
    refine ⟨⟨_, rfl⟩, fun e' he' => ?_⟩
    cases he'
    rfl

theorem C2_pipeline_exception_barrier_witness :
    pipelineBody raisingStages = Except.error "boom" ∧
    check_and_update raisingStages =
      Except.ok ⟨false, "更新检查/安装失败: boom", none, some "UPDATE_FAILED"⟩ :=
  ⟨rfl, (C2_pipeline_exception_barrier raisingStages).2 "boom" rfl⟩

/-- Helper: inserting a smaller element into a descending list passes
the head. -/
theorem insertDesc_of_lt (x y : Nat) (l : List Nat) (h : x < y) :
    insertDesc x (y :: l) = y :: insertDesc x l := by
  simp only [insertDesc]
  rw [if_neg (by omega)]

/-- Helper: sorting a strictly increasing four-element window descending
reverses it. -/
theorem sortDesc_window (k : Nat) :
    sortDesc [k+1, k+2, k+3, k+4] = [k+4, k+3, k+2, k+1] := by
  have h4 : insertDesc (k+4) ([] : List Nat) = [k+4] := rfl
  have h3 : insertDesc (k+3) [k+4] = [k+4, k+3] := by
    rw [insertDesc_of_lt _ _ _ (by omega)]; rfl
  have h2 : insertDesc (k+2) [k+4, k+3] = [k+4, k+3, k+2] := by
    rw [insertDesc_of_lt _ _ _ (by omega), insertDesc_of_lt _ _ _ (by omega)]; rfl
  have h1 : insertDesc (k+1) [k+4, k+3, k+2] = [k+4, k+3, k+2, k+1] := by
    rw [insertDesc_of_lt _ _ _ (by omega), insertDesc_of_lt _ _ _ (by omega),
        insertDesc_of_lt _ _ _ (by omega)]; rfl
  unfold sortDesc
  simp only [List.foldr_cons, List.foldr_nil]
  rw [h4, h3, h2, h1]

/-- Helper: one legacy install on a full three-backup window slides the
window: the oldest backup is pruned, the new one kept. -/
theorem legacyStep_window (k : Nat) :
    legacyBackupStep 3 [k+1, k+2, k+3] (k+4) = [k+2, k+3, k+4] := by
  unfold legacyBackupStep cleanup_old_backups
  rw [if_neg (by norm_num)]
  have happ : ([k+1, k+2, k+3] : List Nat) ++ [k+4] = [k+1, k+2, k+3, k+4] := rfl
  rw [happ, sortDesc_window]
  dsimp only
  have htake : ([k+4, k+3, k+2, k+1] : List Nat).take (Int.toNat 3) = [k+4, k+3, k+2] := rfl
  rw [htake]
  simp [List.filter, List.contains]

/-- Helper: after `j + 3` legacy installs at times `1, …, j + 3`, the
backup directory holds exactly the last three times. -/
theorem legacy_retention_aux (j : Nat) :
    legacyBackupRun 3 [] (List.range' 1 (j + 3)) = [j+1, j+2, j+3] := by
  induction j with
  | zero => decide
  | succ k ih =>
    have hr : List.range' 1 (k + 3 + 1) = List.range' 1 (k + 3) ++ [1 + (k + 3)] := by
      simpa using @List.range'_concat 1 1 (k + 3)
    unfold legacyBackupRun at ih ⊢
    rw [show k + 1 + 3 = k + 3 + 1 from by omega, hr, List.foldl_append, ih]
    have h14 : 1 + (k + 3) = k + 4 := by omega
    rw [h14]
    simpa using legacyStep_window k

/-- C7 (amended): in the legacy updater, where `create_backup` copies
the new backup and then prunes, N installs (at strictly increasing
times `1, …, N`) with retention count 3 and N ≥ 3 leave exactly 3
backup files, and they are the 3 most recently created
(`N-2, N-1, N`).  In the modern updater pruning runs before the new
backup is copied, so N ≥ 4 installs leave 4 files (see the
counterexample). -/
theorem C7_legacy_backup_retention (n : Nat) (h : 3 ≤ n) :
    legacyBackupRun 3 [] (List.range' 1 n) = [n - 2, n - 1, n] ∧
    (legacyBackupRun 3 [] (List.range' 1 n)).length = 3 := by
  obtain ⟨j, rfl⟩ : ∃ j, n = j + 3 := ⟨n - 3, by omega⟩
  have haux := legacy_retention_aux j
  constructor
  · rw [haux, show j + 3 - 2 = j + 1 from by omega, show j + 3 - 1 = j + 2 from by omega]
  · rw [haux]; rfl

theorem C7_legacy_backup_retention_witness :
    3 ≤ 5 ∧ legacyBackupRun 3 [] (List.range' 1 5) = [3, 4, 5] :=
  ⟨by decide, (C7_legacy_backup_retention 5 (by decide)).1⟩

/-- Helper: the sanitizing substitution only outputs characters of the
kept class. -/
theorem charOK_sanitizeChar (c : Char) : charOK (sanitizeChar c) = true := by
  unfold sanitizeChar
  by_cases h : charOK c = true
  · rw [if_pos h]; exact h
  · rw [if_neg h]; decide

/-- Helper: the domain-cleaning substitution only outputs characters of
the kept class. -/
theorem charOK_sanitizeDomainChar (c : Char) : charOK (sanitizeDomainChar c) = true := by
  unfold sanitizeDomainChar
  by_cases h : (isWordChar c || c == '-') = true
  · rw [if_pos h]; unfold charOK; rw [h]; rfl
  · rw [if_neg h]; decide

/-- Helper: timestamp characters (digits, underscore) are in the kept
class. -/
theorem charOK_of_ts (ts : List Char) (hts : tsSafeB ts = true) :
    ∀ c ∈ ts, charOK c = true := by
  intro c hc
  have := (List.all_eq_true.mp hts) c hc
  rcases Bool.or_eq_true_iff.mp this with h | h
  · simp [charOK, isWordChar, Char.isAlphanum, h]
  · simp [charOK, isWordChar, h]

theorem charOK_append {a b : List Char}
    (ha : ∀ c ∈ a, charOK c = true) (hb : ∀ c ∈ b, charOK c = true) :
    ∀ c ∈ a ++ b, charOK c = true := by
  intro c hc
  rcases List.mem_append.mp hc with h | h
  exacts [ha c h, hb c h]

/-- Helper: a list of kept-class characters contains no character
outside the class — in particular no path separator. -/
theorem not_contains_of_charOK {l : List Char} (h : ∀ c ∈ l, charOK c = true)
    {x : Char} (hx : charOK x = false) : l.contains x = false := by
  by_contra hcon
  rw [Bool.not_eq_false] at hcon
  have hm : x ∈ l := by
    have helem : l.elem x = true := hcon
    exact (List.elem_iff).mp helem
  rw [h x hm] at hx
  simp at hx

theorem hasDD_cons_of_ne (a : Char) (l : List Char) (h : (a == '.') = false) :
    hasDD (a :: l) = hasDD l := by
  cases l with
  | nil => rfl
  | cons b r => simp [hasDD, h]

/-- Helper: prepending dot-free characters cannot create an adjacent
dot pair. -/
theorem hasDD_append_of_no_dot {a : List Char}
    (ha : ∀ c ∈ a, (c == '.') = false) (b : List Char) :
    hasDD (a ++ b) = hasDD b := by
  induction a with
  | nil => rfl
  | cons x xs ih =>
    rw [List.cons_append, hasDD_cons_of_ne _ _ (ha x (by simp))]
    exact ih (fun c hc => ha c (by simp [hc]))

theorem no_dot_of_ts (ts : List Char) (hts : tsSafeB ts = true) :
    ∀ c ∈ ts, (c == '.') = false := by
  intro c hc
  have hall := (List.all_eq_true.mp hts) c hc
  by_contra hne
  rw [Bool.not_eq_false, beq_iff_eq] at hne
  subst hne
  simp at hall

theorem fallbackName_charOK (ts : List Char) (hts : tsSafeB ts = true) :
    ∀ c ∈ fallbackName ts, charOK c = true := by
  unfold fallbackName
  exact charOK_append (charOK_append (by decide) (charOK_of_ts ts hts)) (by decide)

theorem fallbackName_no_dd (ts : List Char) (hts : tsSafeB ts = true) :
    hasDD (fallbackName ts) = false := by
  unfold fallbackName
  rw [hasDD_append_of_no_dot]
  · decide
  · intro c hc
    have hzed : ∀ c ∈ "zed_update_".toList, (c == '.') = false := by decide
    rcases List.mem_append.mp hc with h | h
    · exact hzed c h
    · exact no_dot_of_ts ts hts c h

theorem fallbackName_ne_nil (ts : List Char) : fallbackName ts ≠ [] := by
  unfold fallbackName
  simp

/-- Helper: the exception-path fallback `zed_update_{ts}.zip` satisfies
all four safety properties. -/
theorem fallback_bundle (ts : List Char) (hts : tsSafeB ts = true) :
    hasDD (fallbackName ts) = false ∧
    (fallbackName ts).contains '/' = false ∧
    (fallbackName ts).contains '\\' = false ∧
    fallbackName ts ≠ [] :=
  ⟨fallbackName_no_dd ts hts,
   not_contains_of_charOK (fallbackName_charOK ts hts) (by decide),
   not_contains_of_charOK (fallbackName_charOK ts hts) (by decide),
   fallbackName_ne_nil ts⟩

theorem downloadName_charOK (ts : List Char) (hts : tsSafeB ts = true) :
    ∀ c ∈ downloadName ts, charOK c = true := by
  unfold downloadName
  exact charOK_append (charOK_append (by decide) (charOK_of_ts ts hts)) (by decide)

theorem splitExt_fst_subset (l : List Char) : ∀ c ∈ (splitExt l).1, c ∈ l := by
  unfold splitExt
  split_ifs
  · intro c hc; exact (List.take_sublist _ _).subset hc
  · intro c hc; exact hc

theorem splitExt_snd_subset (l : List Char) : ∀ c ∈ (splitExt l).2, c ∈ l := by
  unfold splitExt
  split_ifs
  · intro c hc; exact (List.drop_sublist _ _).subset hc
  · intro c hc; simp at hc

/-- Helper: truncation keeps only characters of the original name. -/
theorem truncate100_subset (l : List Char) : ∀ c ∈ truncate100 l, c ∈ l := by
  unfold truncate100
  split_ifs
  · intro c hc
    rcases List.mem_append.mp hc with h | h
    · exact splitExt_fst_subset l c ((List.take_sublist _ _).subset h)
    · exact splitExt_snd_subset l c h
  · intro c hc; exact hc

/-- C5: for every URL (quantified through its parsed scheme, netloc and
percent-decoded path) and every timestamp of `strftime('%Y%m%d_%H%M%S')`
shape, the filename derived by `_safe_filename_from_url` contains no
`..`, no `/`, no `\`, and is non-empty — a single path segment confined
to the destination directory, with the timestamp fallbacks used when no
safe name can be derived. -/
theorem C5_safe_filename_no_traversal (scheme netloc path ts : List Char)
    (hts : tsSafeB ts = true) :
    hasDD (safe_filename_from_url scheme netloc path ts) = false ∧
    (safe_filename_from_url scheme netloc path ts).contains '/' = false ∧
    (safe_filename_from_url scheme netloc path ts).contains '\\' = false ∧
    safe_filename_from_url scheme netloc path ts ≠ [] := by
  unfold safe_filename_from_url
  dsimp only
  by_cases h1 : (scheme.isEmpty || netloc.isEmpty) = true
  · rw [if_pos h1]; exact fallback_bundle ts hts
  rw [if_neg h1]
  by_cases h2 : hasDD path = true
  · rw [if_pos h2]; exact fallback_bundle ts hts
  rw [if_neg h2]
  set F7 := ((if ((ntBasename path).isEmpty || ntBasename path == ['/'] ||
      !(ntBasename path).contains '.') = true then domainName netloc ts
      else ntBasename path).map sanitizeChar).dropWhile (fun c => c == '.') with hF7
  by_cases h3 : (F7.contains '\\' || F7.contains '/') = true
  · rw [if_pos h3]; exact fallback_bundle ts hts
  rw [if_neg h3]
  set F9 := if F7.isEmpty = true then downloadName ts else F7 with hF9
  set F10 := truncate100 F9 with hF10
  by_cases h4 : (F10.isEmpty || hasDD F10 || F10.head? == some '.') = true
  · rw [if_pos h4]; exact fallback_bundle ts hts
  rw [if_neg h4]
  rw [Bool.not_eq_true] at h4
  simp only [Bool.or_eq_false_iff] at h4
  obtain ⟨⟨hEmpty, hDD⟩, hHead⟩ := h4
  have hOK : ∀ c ∈ F10, charOK c = true := by
    intro c hc
    rw [hF10] at hc
    have hc9 := truncate100_subset F9 c hc
    rw [hF9] at hc9
    split_ifs at hc9 with hemp
    · exact downloadName_charOK ts hts c hc9
    · rw [hF7] at hc9
      have hc6 := (List.dropWhile_sublist _).subset hc9
      obtain ⟨a, _, rfl⟩ := List.mem_map.mp hc6
      exact charOK_sanitizeChar a
  refine ⟨hDD, not_contains_of_charOK hOK (by decide),
    not_contains_of_charOK hOK (by decide), ?_⟩
  intro hnil
  rw [hnil] at hEmpty
  simp at hEmpty

theorem C5_safe_filename_no_traversal_witness :
    tsSafeB "20240101_120000".toList = true ∧
    (hasDD (safe_filename_from_url "http".toList "example.com".toList
        "/../../etc/passwd".toList "20240101_120000".toList) = false ∧
     (safe_filename_from_url "http".toList "example.com".toList
        "/../../etc/passwd".toList "20240101_120000".toList).contains '/' = false ∧
     (safe_filename_from_url "http".toList "example.com".toList
        "/../../etc/passwd".toList "20240101_120000".toList).contains '\\' = false ∧
     safe_filename_from_url "http".toList "example.com".toList
        "/../../etc/passwd".toList "20240101_120000".toList ≠ []) :=
  ⟨by decide, C5_safe_filename_no_traversal _ _ _ _ (by decide)⟩

end ZedUpdate
